import Mathlib

/-!
Verification of the PlutoRCON client (package rcon: rcon.go, commands.go,
models.go).

Go strings are byte sequences; every string handled by this client is ASCII
except for the 4-byte out-of-band sentinel 0xFF 0xFF 0xFF 0xFF.  We embed a Go
string as a list of characters (GoStr), mapping byte 0xFF to the code point
U+00FF; on this alphabet the byte-level operations used by the source
(prefix test, split, replace, trim, indexing) agree with the character-level
ones.  Durations are modelled in milliseconds.  Wall-clock effects (sleeps,
deadlines) and the time.Time capture timestamps are outside the embedding;
the network is abstracted as explicit outcome scripts (which datagrams a read
produced, whether a write failed), so that the control flow of the source can
be followed verbatim.
-/

set_option maxRecDepth 100000

abbrev GoStr := List Char

/-- Embed a Lean string literal as a Go string. -/
def gs (s : String) : GoStr := s.data

/-- The 4-byte out-of-band sentinel 0xFF 0xFF 0xFF 0xFF (rcon.go). -/
def ff4 : GoStr := List.replicate 4 (Char.ofNat 255)

/-- ASCII lower-casing of one character, the fragment of Go case folding
exercised by this client (all folded data is ASCII). -/
def asciiLower (c : Char) : Char :=
  if 65 ≤ c.toNat ∧ c.toNat ≤ 90 then Char.ofNat (c.toNat + 32) else c

/-- strings.ToLower restricted to the ASCII range. -/
def goToLower (s : GoStr) : GoStr := s.map asciiLower

/-- strings.EqualFold restricted to the ASCII range. -/
def goEqualFold (s t : GoStr) : Bool := goToLower s == goToLower t

/-- The white-space set of strings.TrimSpace (unicode.IsSpace, Latin-1 part;
all trimmed data in this client is ASCII). -/
def isGoSpace (c : Char) : Bool :=
  c.toNat = 32 ∨ (9 ≤ c.toNat ∧ c.toNat ≤ 13) ∨ c.toNat = 133 ∨ c.toNat = 160

/-- strings.TrimSpace. -/
def goTrimSpace (s : GoStr) : GoStr :=
  ((s.dropWhile isGoSpace).reverse.dropWhile isGoSpace).reverse

/-- strings.Contains: `goContains s sub` holds when sub occurs in s. -/
def goContains : GoStr → GoStr → Bool
  | [], sub => sub.isEmpty
  | c :: rest, sub => sub.isPrefixOf (c :: rest) || goContains rest sub

/-- strings.Cut at the first occurrence of a one-character separator:
returns (before, after, found). -/
def goCut (s : GoStr) (sep : Char) : GoStr × GoStr × Bool :=
  match s with
  | [] => ([], [], false)
  | c :: rest =>
    if c = sep then ([], rest, true)
    else
      let r := goCut rest sep
      (c :: r.1, r.2.1, r.2.2)

/-- strings.ReplaceAll for a non-empty pattern, scanning left to right over
non-overlapping occurrences.  The fuel argument bounds the recursion; every
step consumes at least one character, so fuel = length of the subject makes
the function total without changing its value (all call sites pass it so). -/
def goReplaceAllF (pat rep : GoStr) : Nat → GoStr → GoStr
  | 0, s => s
  | _ + 1, [] => []
  | fuel + 1, c :: rest =>
    if pat.isPrefixOf (c :: rest) then
      rep ++ goReplaceAllF pat rep fuel ((c :: rest).drop pat.length)
    else
      c :: goReplaceAllF pat rep fuel rest

/-- strings.ReplaceAll (pattern assumed non-empty, as at every call site). -/
def goReplaceAll (pat rep s : GoStr) : GoStr := goReplaceAllF pat rep s.length s

/-- One pass of the prefix-stripping loop of normalizeRCON (rcon.go lines
161-174): strip a leading sentinel, then a leading "print\n", and report
whether anything changed. -/
def normStep (s : GoStr) : GoStr × Bool :=
  let p1 := if ff4.isPrefixOf s then (s.drop 4, true) else (s, false)
  let p2 :=
    if (gs "print\n").isPrefixOf p1.1 then (p1.1.drop 6, true) else (p1.1, false)
  (p2.1, p1.2 || p2.2)

/-- The prefix-stripping loop of normalizeRCON.  Each changed pass removes at
least four characters, so fuel = length of the subject suffices; the wrapper
normLoopGo passes exactly that. -/
def normLoopF : Nat → GoStr → GoStr
  | 0, s => s
  | fuel + 1, s => if (normStep s).2 then normLoopF fuel (normStep s).1 else s

/-- The prefix-stripping loop of normalizeRCON with sufficient fuel. -/
def normLoopGo (s : GoStr) : GoStr := normLoopF s.length s

/-- normalizeRCON (rcon.go lines 156-179): CRLF normalization, repeated
stripping of leading sentinel / "print\n" prefixes, collapsing of embedded
"\n"+sentinel and "\n"+"print\n" occurrences, final trim. -/
def normalizeRCON (s : GoStr) : GoStr :=
  if s.isEmpty then s
  else
    let s1 := goReplaceAll (gs "\r\n") (gs "\n") s
    let s2 := normLoopGo s1
    let s3 := goReplaceAll (gs "\n" ++ ff4) (gs "\n") s2
    let s4 := goReplaceAll (gs "\nprint\n") (gs "\n") s3
    goTrimSpace s4

/-- splitNonEmptyLines (rcon.go lines 182-195): split on newlines, trim each
line, keep the non-empty ones; empty input yields no lines. -/
def splitNonEmptyLines (s : GoStr) : List GoStr :=
  if s.isEmpty then []
  else ((s.splitOn '\n').map goTrimSpace).filter (fun p => !p.isEmpty)

/-- regexp `\^[0-9A-Za-z]` membership: an alphanumeric colour-code letter. -/
def isColorCodeChar (c : Char) : Bool :=
  (48 ≤ c.toNat ∧ c.toNat ≤ 57) ∨ (65 ≤ c.toNat ∧ c.toNat ≤ 90) ∨
    (97 ≤ c.toNat ∧ c.toNat ≤ 122)

/-- stripColorCodes (rcon.go lines 146-153): remove every occurrence of
`^` followed by an alphanumeric, scanning left to right. -/
def stripColorCodes : GoStr → GoStr
  | [] => []
  | '^' :: c :: rest =>
    if isColorCodeChar c then stripColorCodes rest
    else '^' :: stripColorCodes (c :: rest)
  | c :: rest => c :: stripColorCodes rest

/-- The decimal digit string value used by strconv parsing: all characters
must be digits and there must be at least one. -/
def digitsValAux : GoStr → Nat → Option Nat
  | [], acc => some acc
  | c :: rest, acc =>
    if 48 ≤ c.toNat ∧ c.toNat ≤ 57 then
      digitsValAux rest (acc * 10 + (c.toNat - 48))
    else none

def digitsVal : GoStr → Option Nat
  | [] => none
  | s => digitsValAux s 0

/-- The mathematical value of strconv.Atoi input: optional sign followed by
at least one decimal digit, none on a syntax error (range not yet applied). -/
def parseDec (s : GoStr) : Option Int :=
  match s with
  | '+' :: rest => (digitsVal rest).map Int.ofNat
  | '-' :: rest => (digitsVal rest).map (fun n => -(n : Int))
  | _ => (digitsVal s).map Int.ofNat

def int64Max : Int := 9223372036854775807

def int64Min : Int := -9223372036854775808

/-- strconv.Atoi on a 64-bit platform, with a nil error: the parsed value
when syntax and range are fine, none otherwise. -/
def goAtoiOpt (s : GoStr) : Option Int :=
  match parseDec s with
  | none => none
  | some v => if int64Min ≤ v ∧ v ≤ int64Max then some v else none

/-- The helper atoi (rcon.go lines 134-137): strconv.Atoi with the error
ignored — 0 on a syntax error, the clamped value on a range error. -/
def goAtoi (s : GoStr) : Int :=
  match parseDec s with
  | none => 0
  | some v => if v > int64Max then int64Max else if v < int64Min then int64Min else v

/-- boolSafe (rcon.go lines 140-143). -/
def boolSafe (s : GoStr) : Bool :=
  let v := goTrimSpace s
  v == gs "1" || goEqualFold v (gs "true")

/-- How one accumulation loop of readResponse ends: the read deadline fired
(a net.Error with Timeout() true) or another I/O error occurred.  The Nat
tags are opaque error values from the network layer. -/
inductive ReadEnd where
  | timeout (e : Nat)
  | ioErr (e : Nat)
deriving DecidableEq

/-- Whether the terminating error is a timeout (netErr.Timeout()). -/
def ReadEnd.isTimeout : ReadEnd → Bool
  | .timeout _ => true
  | .ioErr _ => false

/-- The observable behaviour of the socket during one readResponse call: the
payloads of the datagrams that arrived (in order, each with n > 0) and the
event that ended the loop.  Deadline arithmetic (readTimeout, readExtension)
only decides WHICH datagrams make it into this list; it is abstracted here. -/
structure ReadScript where
  datagrams : List GoStr
  fin : ReadEnd
deriving DecidableEq

/-- The buffer contents after the read loop: concatenation of all payloads. -/
def bufJoin (ds : List GoStr) : GoStr := ds.foldl (fun a b => a ++ b) []

/-- What readResponse returns.  In the source no path returns both non-nil
lines and a non-nil error, so the three cases are disjoint: ok carries the
(possibly nil) line slice with a nil error, the other two carry nil lines
with the error. -/
inductive ReadResult where
  | ok (lines : List GoStr)
  | timeoutErr (e : Nat)
  | otherErr (e : Nat)
deriving DecidableEq

/-- readResponse (rcon.go lines 55-95): an I/O error propagates immediately;
a timeout with an empty buffer propagates the timeout error; a timeout after
data normalizes the buffer, a normalization to "" is the benign nil, nil
outcome, otherwise the non-empty trimmed lines are returned. -/
def readResponseGo (sc : ReadScript) : ReadResult :=
  match sc.fin with
  | .ioErr e => .otherErr e
  | .timeout e =>
    let buf := bufJoin sc.datagrams
    if buf.isEmpty then .timeoutErr e
    else
      let raw := normalizeRCON buf
      if raw.isEmpty then .ok []
      else .ok (splitNonEmptyLines raw)

/-- Outcome of one rc.Conn.Write of the request packet. -/
inductive WriteOutcome where
  | ok
  | fail (e : Nat)
deriving DecidableEq

/-- The observable network behaviour of one attempt of the SendCommand retry
loop: how the write went, and (when it succeeded) how the accumulation went. -/
structure AttemptScript where
  write : WriteOutcome
  read : ReadScript
deriving DecidableEq

/-- Errors returned by the modelled operations: opaque error values received
from the network layer, fmt.Errorf errors with a fixed message, and the two
fmt.Errorf errors that embed a name with %q. -/
inductive GoError where
  | net (e : Nat)
  | msg (s : GoStr)
  | noResponse (cmd : GoStr)
  | emptyDvar (dvar : GoStr)
deriving DecidableEq

/-- The pair a Go ([]string, error) return denotes: a line slice (nil and
empty both modelled as []) and an optional error. -/
structure SendResult where
  lines : List GoStr
  err : Option GoError
deriving DecidableEq

/-- The retry loop of SendCommand (commands.go lines 41-83), one list entry
per loop iteration (the source runs retries+1 of them), threading the
remembered error lerr.  Sleeps between attempts are timing only and are not
modelled. -/
def sendLoop (requireSuccess : Bool) (cmd : GoStr) :
    Option GoError → List AttemptScript → SendResult
  | lerr, [] =>
    if requireSuccess then
      match lerr with
      | some e => ⟨[], some e⟩
      | none => ⟨[], some (.noResponse cmd)⟩
    else ⟨[], lerr⟩
  | lerr, a :: rest =>
    match a.write with
    | .fail e => sendLoop requireSuccess cmd (some (.net e)) rest
    | .ok =>
      match readResponseGo a.read with
      | .ok res =>
        if !res.isEmpty then ⟨res, none⟩
        else if !requireSuccess then ⟨res, none⟩
        else sendLoop requireSuccess cmd lerr rest
      | .timeoutErr e =>
        if !requireSuccess then ⟨[], none⟩
        else sendLoop requireSuccess cmd (some (.net e)) rest
      | .otherErr e => ⟨[], some (.net e)⟩

/-- The connection facet of RCONClient that the guards read: whether rc.Conn
is nil, and whether the underlying socket has been closed. -/
structure ConnState where
  isNil : Bool
  closed : Bool
deriving DecidableEq

/-- Close (rcon.go lines 50-52): rc.Conn.Close() closes the socket; the
method does not assign rc.Conn, so the field stays non-nil. -/
def closeGo (c : ConnState) : ConnState := { c with closed := true }

/-- SendCommand (commands.go lines 13-83): the nil-connection guard, then the
retry loop.  Packet building and the mutex are orthogonal to the returned
value and are not modelled here; the script supplies one entry per loop
iteration. -/
def sendCommandGo (conn : ConnState) (requireSuccess : Bool) (cmd : GoStr)
    (script : List AttemptScript) : SendResult :=
  if conn.isNil then ⟨[], some (.msg (gs "RCON connection is not established"))⟩
  else sendLoop requireSuccess cmd none script

/-- Per-attempt classifier: did this attempt of the loop end with no lines
and without aborting the loop (a failed write, an empty-buffer timeout, or a
benign empty accumulation)? -/
def attemptSilent (a : AttemptScript) : Bool :=
  match a.write with
  | .fail _ => true
  | .ok =>
    match readResponseGo a.read with
    | .ok res => res.isEmpty
    | .timeoutErr _ => true
    | .otherErr _ => false

/-- The error such an attempt makes SendCommand remember in lerr, if any. -/
def attemptErr (a : AttemptScript) : Option GoError :=
  match a.write with
  | .fail e => some (.net e)
  | .ok =>
    match readResponseGo a.read with
    | .timeoutErr e => some (.net e)
    | _ => none

/-- The value of lerr after the whole loop: the error of the last attempt
that remembered one, starting from init. -/
def lastAttemptErr (init : Option GoError) (script : List AttemptScript) :
    Option GoError :=
  script.foldl
    (fun acc a => match attemptErr a with | some e => some e | none => acc) init

/-- The regular-expression fragment used by this client: literal tokens
(optionally case-insensitive), single-character classes, quantified
character classes (the only quantified sub-expressions in the source's
patterns are character classes), greedy option, alternation, sequencing,
capturing groups, and the end anchor.  Go's regexp has leftmost-first
(Perl-style) match semantics, realised below by backtracking priority:
the left alternative first, longest repetition first when greedy, shortest
first when lazy. -/
inductive RE where
  | tok (lit : GoStr) (ci : Bool)
  | cls (p : Char → Bool)
  | rep (p : Char → Bool) (atLeastOne : Bool) (lazy : Bool)
  | opt (r : RE)
  | alt (a b : RE)
  | seq (a b : RE)
  | grp (idx : Nat) (r : RE)
  | eol

/-- Character comparison, case-insensitive when ci is set. -/
def charEq (ci : Bool) (a b : Char) : Bool :=
  if ci then asciiLower a == asciiLower b else a == b

/-- Consume a literal token from the front of the input. -/
def tokStrip (ci : Bool) : GoStr → GoStr → Option GoStr
  | [], s => some s
  | _ :: _, [] => none
  | a :: as, c :: cs => if charEq ci a c then tokStrip ci as cs else none

/-- Length of the maximal prefix of characters satisfying p. -/
def countWhile (p : Char → Bool) : GoStr → Nat
  | [] => 0
  | c :: rest => if p c then countWhile p rest + 1 else 0

/-- Candidate repetition lengths in backtracking priority order: ascending
from the minimum when lazy, descending from the maximum when greedy. -/
def repCounts (atLeastOne lazy : Bool) (m : Nat) : List Nat :=
  let lo := if atLeastOne then 1 else 0
  if m < lo then []
  else
    let base := (List.range (m + 1 - lo)).map (fun k => k + lo)
    if lazy then base else base.reverse

/-- Captured groups, most recent first; lookup of an absent index is the
non-participating group (Go reports it as ""). -/
abbrev Caps := List (Nat × GoStr)

abbrev ReK := GoStr → Caps → Option Caps

/-- Try the candidate repetition lengths in order against the continuation. -/
def tryCounts (s : GoStr) (caps : Caps) (k : ReK) : List Nat → Option Caps
  | [] => none
  | n :: ns =>
    match k (s.drop n) caps with
    | some r => some r
    | none => tryCounts s caps k ns

/-- The backtracking matcher in continuation style.  matRE r s caps k matches
r against a prefix of s and hands the rest (and the updated captures) to k;
the first success in priority order wins, as in Go's leftmost-first
semantics. -/
def matRE : RE → GoStr → Caps → ReK → Option Caps
  | .tok lit ci, s, caps, k =>
    match tokStrip ci lit s with
    | some s2 => k s2 caps
    | none => none
  | .cls p, s, caps, k =>
    match s with
    | [] => none
    | c :: rest => if p c then k rest caps else none
  | .rep p a l, s, caps, k => tryCounts s caps k (repCounts a l (countWhile p s))
  | .opt r, s, caps, k =>
    match matRE r s caps k with
    | some res => some res
    | none => k s caps
  | .alt a b, s, caps, k =>
    match matRE a s caps k with
    | some res => some res
    | none => matRE b s caps k
  | .seq a b, s, caps, k => matRE a s caps (fun s2 caps2 => matRE b s2 caps2 k)
  | .grp i r, s, caps, k =>
    matRE r s caps (fun s2 caps2 => k s2 ((i, s.take (s.length - s2.length)) :: caps2))
  | .eol, s, caps, k => if s.isEmpty then k s caps else none

/-- Match anchored at the start of the input (patterns beginning with ^). -/
def reMatchStart (r : RE) (s : GoStr) : Option Caps :=
  matRE r s [] (fun _ caps => some caps)

/-- Unanchored FindStringSubmatch: the leftmost starting position that
matches wins. -/
def reSearch (r : RE) : GoStr → Option Caps
  | [] => reMatchStart r []
  | c :: rest =>
    match reMatchStart r (c :: rest) with
    | some caps => some caps
    | none => reSearch r rest

/-- Captured text of group i ("" when the group did not participate). -/
def capGet (caps : Caps) (i : Nat) : GoStr := (caps.lookup i).getD []

/-- Right-nested sequence of a list of regex parts. -/
def seqs : List RE → RE
  | [] => .tok [] false
  | [r] => r
  | r :: rs => .seq r (seqs rs)

/-- RE2 character class \d. -/
def reDigit (c : Char) : Bool := 48 ≤ c.toNat ∧ c.toNat ≤ 57

/-- RE2 character class \w. -/
def reWord (c : Char) : Bool :=
  reDigit c ∨ (65 ≤ c.toNat ∧ c.toNat ≤ 90) ∨ (97 ≤ c.toNat ∧ c.toNat ≤ 122) ∨
    c.toNat = 95

/-- RE2 character class \s (exactly tab, newline, form feed, carriage return
and space). -/
def reSpace (c : Char) : Bool :=
  c.toNat = 9 ∨ c.toNat = 10 ∨ c.toNat = 12 ∨ c.toNat = 13 ∨ c.toNat = 32

/-- RE2 character class \S. -/
def reNonSpace (c : Char) : Bool := !reSpace c

/-- RE2 class [0-9a-fA-F]. -/
def reHex (c : Char) : Bool :=
  reDigit c ∨ (97 ≤ c.toNat ∧ c.toNat ≤ 102) ∨ (65 ≤ c.toNat ∧ c.toNat ≤ 70)

/-- RE2 any character `.` (newline excluded; no s flag in the source). -/
def reDot (c : Char) : Bool := c.toNat ≠ 10

/-- The header pattern `(?i)^num\s+score\s+ping` of Status (commands.go line
106). -/
def headerRE : RE :=
  seqs [.tok (gs "num") true, .rep reSpace true false, .tok (gs "score") true,
    .rep reSpace true false, .tok (gs "ping") true]

/-- The player-row pattern of Status (commands.go lines 118-129), groups
numbered in source order: 1 num, 2 score, 3 bot, 4 ping, 5 guid, 6 name,
7 lastmsg, 8 ipport, 9 qport, 10 rate. -/
def playerRowRE : RE :=
  seqs [.grp 1 (.rep reDigit true false), .rep reSpace true false,
    .grp 2 (.seq (.opt (.cls (fun c => c = '-'))) (.rep reDigit true false)),
    .rep reSpace true false,
    .opt (.grp 3 (.rep reWord true false)), .rep reSpace false false,
    .grp 4 (.alt (.rep reDigit true false) (.tok (gs "LOAD") false)),
    .rep reSpace true false,
    .grp 5 (.rep reHex true false), .rep reSpace true false,
    .grp 6 (.rep reDot true true), .rep reSpace true false,
    .grp 7 (.rep reDigit true false), .rep reSpace true false,
    .grp 8 (.rep reNonSpace true false), .rep reSpace true false,
    .grp 9 (.rep reDigit true false), .rep reSpace true false,
    .grp 10 (.rep reDigit true false)]

/-- The dynamically-typed Ping field of Player (models.go: `Ping any`): the
raw string, or the parsed integer when the source converts it. -/
inductive PingV where
  | str (v : GoStr)
  | int (v : Int)
deriving DecidableEq

/-- Player (models.go lines 18-29), without the capture timestamp concerns;
field order as in the source. -/
structure Player where
  clientNum : Int
  name : GoStr
  ping : PingV
  score : Int
  ip : GoStr
  port : Int
  qport : Int
  guid : GoStr
  lastMsg : Int
  rate : Int
deriving DecidableEq

/-- One candidate row of the Status table (commands.go lines 132-180): trim,
skip empty lines and lines whose first character is not a digit, match the
fixed-field pattern (silently skipping rows that do not match), then build
the Player from the captured groups. -/
def decodeRow (line : GoStr) : Option Player :=
  let t := goTrimSpace line
  match t with
  | [] => none
  | c :: _ =>
    if c.toNat < 48 ∨ c.toNat > 57 then none
    else
      match reSearch playerRowRE t with
      | none => none
      | some caps =>
        let ipport := capGet caps 8
        let cut := goCut ipport ':'
        let pingStr := capGet caps 4
        let ping :=
          if pingStr ≠ gs "LOAD" then
            match goAtoiOpt pingStr with
            | some v => PingV.int v
            | none => PingV.str pingStr
          else PingV.str pingStr
        some
          { clientNum := goAtoi (capGet caps 1)
            name := capGet caps 6
            ping := ping
            score := goAtoi (capGet caps 2)
            ip := cut.1
            port := goAtoi cut.2.1
            qport := goAtoi (capGet caps 9)
            guid := capGet caps 5
            lastMsg := goAtoi (capGet caps 7)
            rate := goAtoi (capGet caps 10) }

/-- The map-name scan of Status (commands.go lines 94-103): the first line
whose trimmed, lowered form starts with "map:" supplies everything after the
first colon, trimmed. -/
def findMap : List GoStr → GoStr
  | [] => []
  | l :: rest =>
    let t := goTrimSpace l
    if (gs "map:").isPrefixOf (goToLower t) then
      let cut := goCut t ':'
      if cut.2.2 then goTrimSpace cut.2.1 else []
    else findMap rest

/-- The header scan of Status (commands.go lines 105-115): index just after
the first line matching the header pattern. -/
def findHeaderAux : Nat → List GoStr → Option Nat
  | _, [] => none
  | i, l :: rest =>
    if (reMatchStart headerRE (goTrimSpace l)).isSome then some (i + 1)
    else findHeaderAux (i + 1) rest

/-- The parsed part of ServerStatus (models.go lines 31-36; Raw and
RetrievedAt are the input echo and a wall-clock timestamp). -/
structure ServerStatusModel where
  mapName : GoStr
  players : List Player
deriving DecidableEq

/-- The response-parsing part of Status (commands.go lines 92-183) applied to
the accumulated lines. -/
def parseStatus (res : List GoStr) : ServerStatusModel :=
  let start := (findHeaderAux 0 res).getD 0
  ⟨findMap res, (res.drop start).filterMap decodeRow⟩

/-- The positional pairing loop of GetInfo / GetStatus (commands.go lines
340-347 and 425-432): take elements two at a time, trim both, skip pairs with
an empty key, colour-strip the value; a lone trailing element never enters
the loop body. -/
def pairUp : List GoStr → List (GoStr × GoStr)
  | k :: v :: rest =>
    let key := goTrimSpace k
    let vv := goTrimSpace v
    if key.isEmpty then pairUp rest
    else (key, stripColorCodes vv) :: pairUp rest
  | _ => []

/-- The key/value block decoder of GetInfo / GetStatus (commands.go lines
335-347 and 420-432): split the data line on backslashes, discard an empty
first element, pair up the rest.  The Go map is modelled as the pair list in
insertion order; lookups take the last binding, as map assignment overwrites. -/
def kvPairs (dataLine : GoStr) : List (GoStr × GoStr) :=
  let parts := dataLine.splitOn '\\'
  let parts2 :=
    match parts with
    | [] :: rest => rest
    | ps => ps
  pairUp parts2

/-- Lookup in the modelled map: the last binding of the key wins. -/
def kvGet (kv : List (GoStr × GoStr)) (key : GoStr) : Option GoStr :=
  kv.foldl (fun acc p => if p.1 == key then some p.2 else acc) none

/-- Go map indexing kv[k]: "" when the key is absent. -/
def kvGetD (kv : List (GoStr × GoStr)) (key : GoStr) : GoStr :=
  (kvGet kv key).getD []

/-- The atoint64Safe closure of GetInfo (commands.go lines 351-358):
strconv.ParseInt(v, 10, 64) of the value bound to k, error ignored, 0 when
the key is absent. -/
def atoint64Safe (kv : List (GoStr × GoStr)) (k : GoStr) : Int :=
  match kvGet kv k with
  | none => 0
  | some v => goAtoi v

/-- ServerInfo (models.go lines 38-54) without the RetrievedAt timestamp. -/
structure ServerInfo where
  netFieldChk : Int
  protocol : Int
  sessionMode : Int
  hostname : GoStr
  mapName : GoStr
  isInGame : Bool
  maxClients : Int
  gameType : GoStr
  hw : Int
  modB : Bool
  voice : Bool
  secKey : GoStr
  secID : GoStr
  hostAddr : GoStr
deriving DecidableEq

/-- The field-population block of GetInfo (commands.go lines 349-375),
translated verbatim: note that except for NetFieldChk (which goes through
atoint64Safe) and the string fields (which index the map), the source applies
atoi / boolSafe to the key-name literal itself, not to the value bound to it. -/
def buildServerInfo (kv : List (GoStr × GoStr)) : ServerInfo where
  netFieldChk := atoint64Safe kv (gs "netfieldchk")
  protocol := goAtoi (gs "protocol")
  sessionMode := goAtoi (gs "sessionmode")
  hostname := kvGetD kv (gs "hostname")
  mapName := kvGetD kv (gs "mapname")
  isInGame := boolSafe (gs "isInGame")
  maxClients := goAtoi (gs "com_maxclients")
  gameType := kvGetD kv (gs "gametype")
  hw := goAtoi (gs "hw")
  modB := boolSafe (gs "mod")
  voice := boolSafe (gs "voice")
  secKey := kvGetD kv (gs "seckey")
  secID := kvGetD kv (gs "secid")
  hostAddr := kvGetD kv (gs "hostaddr")

/-- ServerStatusInfo (models.go lines 56-83) without the RetrievedAt
timestamp. -/
structure ServerStatusInfo where
  comMaxClients : Int
  gameType : GoStr
  randomSeed : Int
  gameName : GoStr
  mapName : GoStr
  playlistEnabled : Bool
  playlistEntry : Int
  protocol : Int
  scrTeamFFType : Int
  shortVersion : Bool
  svAllowAimAssist : Bool
  svAllowAnonymous : Bool
  svClientFpsLimit : Int
  svDisableClientConsole : Bool
  svHostname : GoStr
  svMaxClients : Int
  svMaxPing : Int
  svMinPing : Int
  svPatchDSR50 : Bool
  svPrivateClients : Int
  svPrivateClientsForUsers : Int
  svPure : Bool
  svVoice : Bool
  passwordEnabled : Bool
  modEnabled : Bool
deriving DecidableEq

/-- The field-population block of GetStatus (commands.go lines 434-467),
translated verbatim: only the string fields and the
sv_privateClientsForClients branch consult the map; every atoi / boolSafe
call receives the key-name literal itself. -/
def buildServerStatusInfo (kv : List (GoStr × GoStr)) : ServerStatusInfo where
  comMaxClients := goAtoi (gs "com_maxclients")
  gameType := kvGetD kv (gs "g_gametype")
  randomSeed := goAtoi (gs "g_randomSeed")
  gameName := kvGetD kv (gs "gamename")
  mapName := kvGetD kv (gs "mapname")
  playlistEnabled := boolSafe (gs "playlist_enabled")
  playlistEntry := goAtoi (gs "playlist_entry")
  protocol := goAtoi (gs "protocol")
  scrTeamFFType := goAtoi (gs "scr_team_fftype")
  shortVersion := boolSafe (gs "shortversion")
  svAllowAimAssist := boolSafe (gs "sv_allowAimAssist")
  svAllowAnonymous := boolSafe (gs "sv_allowAnonymous")
  svClientFpsLimit := goAtoi (gs "sv_clientFpsLimit")
  svDisableClientConsole := boolSafe (gs "sv_disableClientConsole")
  svHostname := kvGetD kv (gs "sv_hostname")
  svMaxClients := goAtoi (gs "sv_maxclients")
  svMaxPing := goAtoi (gs "sv_maxPing")
  svMinPing := goAtoi (gs "sv_minPing")
  svPatchDSR50 := boolSafe (gs "sv_patch_dsr50")
  svPrivateClients := goAtoi (gs "sv_privateClients")
  svPrivateClientsForUsers :=
    match kvGet kv (gs "sv_privateClientsForClients") with
    | some v => goAtoi v
    | none => goAtoi (gs "sv_privateClientsForUsers")
  svPure := boolSafe (gs "sv_pure")
  svVoice := boolSafe (gs "sv_voice")
  passwordEnabled := boolSafe (gs "pswrd")
  modEnabled := boolSafe (gs "mod")

/-- The data-line reassembly of GetInfo / GetStatus (commands.go lines
317-333 and 402-418): concatenate every trimmed line that is not a
case-insensitive match of the banner and starts with or contains a
backslash; fall back to the trimmed last line when none qualified. -/
def pickDataLine (banner : GoStr) (lines : List GoStr) : GoStr :=
  let dl := lines.foldl
    (fun acc l =>
      let t := goTrimSpace l
      if goEqualFold t banner then acc
      else if (gs "\\").isPrefixOf t || goContains t (gs "\\") then acc ++ t
      else acc) []
  if dl.isEmpty then goTrimSpace ((lines.getLast?).getD []) else dl

/-- GetInfo (commands.go lines 295-376): nil-connection guard, one
unauthenticated "getinfo" write, one accumulation, then the key/value
decode.  The structure of the definition is the structure of the source:
there is no loop, no retry and no backoff; the one write outcome and the one
read script are consumed exactly once. -/
def getInfoGo (conn : ConnState) (w : WriteOutcome) (rd : ReadScript) :
    Except GoError ServerInfo :=
  if conn.isNil then .error (.msg (gs "RCON connection is not established"))
  else
    match w with
    | .fail e => .error (.net e)
    | .ok =>
      match readResponseGo rd with
      | .timeoutErr e => .error (.net e)
      | .otherErr e => .error (.net e)
      | .ok lines =>
        if lines.isEmpty then .error (.msg (gs "empty infoResponse"))
        else .ok (buildServerInfo (kvPairs (pickDataLine (gs "inforesponse") lines)))

/-- GetStatus (commands.go lines 379-468), same shape as GetInfo with the
"getstatus" request, the "statusresponse" banner and its own field block. -/
def getStatusGo (conn : ConnState) (w : WriteOutcome) (rd : ReadScript) :
    Except GoError ServerStatusInfo :=
  if conn.isNil then .error (.msg (gs "RCON connection is not established"))
  else
    match w with
    | .fail e => .error (.net e)
    | .ok =>
      match readResponseGo rd with
      | .timeoutErr e => .error (.net e)
      | .otherErr e => .error (.net e)
      | .ok lines =>
        if lines.isEmpty then .error (.msg (gs "empty statusResponse"))
        else
          .ok (buildServerStatusInfo (kvPairs (pickDataLine (gs "statusresponse") lines)))

/-- rx1 of GetDvar (commands.go line 239):
`(?i)^name\s+is:\s+"?(?P<val>.*?)"?(?:\s|$)` with name the QuoteMeta-escaped
trimmed dvar, injected here as a literal token; the captured value is group 1. -/
def rx1RE (name : GoStr) : RE :=
  seqs [.tok name true, .rep reSpace true false, .tok (gs "is:") true,
    .rep reSpace true false, .opt (.cls (fun c => c = '"')),
    .grp 1 (.rep reDot false true), .opt (.cls (fun c => c = '"')),
    .alt (.cls reSpace) .eol]

/-- rx2 of GetDvar (commands.go line 240):
`(?i)^name\s*[:=]\s*"?(?P<val>.*?)"?$`. -/
def rx2RE (name : GoStr) : RE :=
  seqs [.tok name true, .rep reSpace false false,
    .cls (fun c => c = ':' || c = '='),
    .rep reSpace false false, .opt (.cls (fun c => c = '"')),
    .grp 1 (.rep reDot false true), .opt (.cls (fun c => c = '"')), .eol]

/-- The two recognition patterns tried in order on a cleaned line
(commands.go lines 255-268); a match returns the colour-stripped captured
value. -/
def lineMatchesDvar (name clean : GoStr) : Option GoStr :=
  match reMatchStart (rx1RE name) clean with
  | some caps => some (stripColorCodes (capGet caps 1))
  | none =>
    match reMatchStart (rx2RE name) clean with
    | some caps => some (stripColorCodes (capGet caps 1))
    | none => none

/-- The pollution test of GetDvar (commands.go lines 269 and 277): the
lowered text contains the known polluting token. -/
def polluted (l : GoStr) : Bool := goContains (goToLower l) (gs "sv_iw4madmin_in")

/-- The colour-strip-and-trim applied to every response line (commands.go
line 251). -/
def cleanLine (l : GoStr) : GoStr := goTrimSpace (stripColorCodes l)

/-- The per-line scan of one GetDvar attempt (commands.go lines 250-274):
skip blank cleans, return the first pattern match (inl), otherwise remember
the first clean, non-polluted line in lastClean and go on (inr). -/
def scanLines (name : GoStr) : GoStr → List GoStr → GoStr ⊕ GoStr
  | lastClean, [] => .inr lastClean
  | lastClean, l :: rest =>
    let clean := cleanLine l
    if clean.isEmpty then scanLines name lastClean rest
    else
      match lineMatchesDvar name clean with
      | some v => .inl v
      | none =>
        let lc := if !polluted clean && lastClean.isEmpty then clean else lastClean
        scanLines name lc rest

/-- The attempt loop of GetDvar (commands.go lines 242-291), fuel counting
the remaining attempts out of maxAttempts = 3; resp gives the lines
SendCommand returned on each attempt (the claim's scenario; a SendCommand
failure would return its error before any scan and is outside this model).
A raw line containing the pollution token triggers the retry, otherwise the
loop breaks; after the loop the remembered fallback is returned when
non-empty, else the "empty dvar response" error. -/
def getDvarLoop (name dvar : GoStr) (resp : Nat → List GoStr) :
    Nat → GoStr → Except GoError GoStr
  | 0, lastClean =>
    if lastClean.isEmpty then .error (.emptyDvar dvar) else .ok lastClean
  | fuel + 1, lastClean =>
    let res := resp (3 - (fuel + 1))
    match scanLines name lastClean res with
    | .inl v => .ok v
    | .inr lc =>
      if res.any polluted then getDvarLoop name dvar resp fuel lc
      else if lc.isEmpty then .error (.emptyDvar dvar)
      else .ok lc

/-- GetDvar (commands.go lines 233-292): empty-name guard, then the attempt
loop with the QuoteMeta-escaped trimmed name (QuoteMeta only escapes; the
name participates in the patterns as a literal token). -/
def getDvarGo (dvar : GoStr) (resp : Nat → List GoStr) : Except GoError GoStr :=
  if dvar.isEmpty then .error (.msg (gs "dvar cannot be empty"))
  else getDvarLoop (goTrimSpace dvar) dvar resp 3 []

/-- The responses the attempt loop actually scans, driven by the pollution
test: attempt 0 always, attempt i+1 only when attempt i was polluted, capped
at 3 attempts. -/
def dvarConsumed (resp : Nat → List GoStr) : List GoStr :=
  resp 0 ++
    (if (resp 0).any polluted then
      resp 1 ++ (if (resp 1).any polluted then resp 2 else [])
    else [])

/-- The fallback GetDvar keeps: the first line whose cleaned form is
non-empty and free of the pollution token. -/
def dvarFallback (ls : List GoStr) : Option GoStr :=
  (((ls.map cleanLine).filter (fun c => !c.isEmpty && !polluted c)).head?)

/-- The validation outcomes of New (rcon.go lines 19-47) up to the first
network effect: the empty-password error, the invalid-port error, or
progression to net.ResolveUDPAddr carrying the parsed port. -/
inductive NewOutcome where
  | errEmptyPassword
  | errInvalidPort
  | resolveStage (portNum : Int)
deriving DecidableEq

/-- New (rcon.go lines 19-37): password checked first, then strconv.Atoi of
the port; any Atoi error (syntax or range) is the invalid-port error, and a
successful parse — of any sign — proceeds to address resolution. -/
def newGo (_ip port password : GoStr) : NewOutcome :=
  if password.isEmpty then .errEmptyPassword
  else
    match goAtoiOpt port with
    | none => .errInvalidPort
    | some n => .resolveStage n

/-- defaultReadTimeout (rcon.go line 15), in milliseconds. -/
def defaultReadTimeoutMs : Nat := 1000

/-- The client record New builds after a successful dial (rcon.go lines
39-46): the stored read timeout is the defaultReadTimeout constant. -/
structure RCONClientModel where
  ip : GoStr
  port : Int
  password : GoStr
  timeoutMs : Nat
deriving DecidableEq

def mkRCONClient (ip : GoStr) (portNum : Int) (password : GoStr) : RCONClientModel :=
  ⟨ip, portNum, password, defaultReadTimeoutMs⟩

lemma sendLoop_silent (cmd : GoStr) :
    ∀ (script : List AttemptScript) (init : Option GoError),
      (∀ a ∈ script, attemptSilent a = true) →
      sendLoop true cmd init script =
        ⟨[], some ((lastAttemptErr init script).getD (.noResponse cmd))⟩ := by
  intro script
  induction script with
  | nil =>
    intro init h
    cases init <;> simp [sendLoop, lastAttemptErr]
  | cons a rest ih =>
    intro init h
    have ha : attemptSilent a = true := h a (List.mem_cons_self a rest)
    have hrest : ∀ b ∈ rest, attemptSilent b = true :=
      fun b hb => h b (List.mem_cons_of_mem a hb)
    cases hw : a.write with
    | fail e =>
      have h2 : lastAttemptErr init (a :: rest) = lastAttemptErr (some (.net e)) rest := by
        simp [lastAttemptErr, List.foldl_cons, attemptErr, hw]
      rw [h2, ← ih (some (.net e)) hrest]
      simp [sendLoop, hw]
    | ok =>
      cases hr : readResponseGo a.read with
      | ok res =>
        have hres : res = [] := by
          simp [attemptSilent, hw, hr, List.isEmpty_iff] at ha
          exact ha
        have h2 : lastAttemptErr init (a :: rest) = lastAttemptErr init rest := by
          simp [lastAttemptErr, List.foldl_cons, attemptErr, hw, hr]
        rw [h2, ← ih init hrest]
        simp [sendLoop, hw, hr, hres]
      | timeoutErr e =>
        have h2 : lastAttemptErr init (a :: rest) = lastAttemptErr (some (.net e)) rest := by
          simp [lastAttemptErr, List.foldl_cons, attemptErr, hw, hr]
        rw [h2, ← ih (some (.net e)) hrest]
        simp [sendLoop, hw, hr]
      | otherErr e =>
        simp [attemptSilent, hw, hr] at ha

/-- C1: for every command executed by SendCommand with requireSuccess =
false, if every accumulation attempt ends in a timeout with nothing
accumulated (the server never replies: every write succeeds, no datagram
arrives, the deadline fires), the call returns the empty result with no
error. -/
theorem sendCommand_noRequire_timeout_returns_empty (conn : ConnState)
    (cmd : GoStr) (script : List AttemptScript)
    (hconn : conn.isNil = false) (hne : script ≠ [])
    (h : ∀ a ∈ script,
      a.write = .ok ∧ a.read.datagrams = [] ∧ a.read.fin.isTimeout = true) :
    sendCommandGo conn false cmd script = ⟨[], none⟩ := by
  cases script with
  | nil => exact absurd rfl hne
  | cons a rest =>
    obtain ⟨hw, hd, ht⟩ := h a (List.mem_cons_self a rest)
    cases hf : a.read.fin with
    | ioErr e => rw [hf] at ht; simp [ReadEnd.isTimeout] at ht
    | timeout e =>
      simp [sendCommandGo, hconn, sendLoop, hw, readResponseGo, hf, hd, bufJoin]

theorem sendCommand_noRequire_timeout_returns_empty_witness :
    ((⟨false, false⟩ : ConnState).isNil = false ∧
      ([⟨.ok, ⟨[], .timeout 5⟩⟩] : List AttemptScript) ≠ [] ∧
      (∀ a ∈ ([⟨.ok, ⟨[], .timeout 5⟩⟩] : List AttemptScript),
        a.write = .ok ∧ a.read.datagrams = [] ∧ a.read.fin.isTimeout = true)) ∧
    sendCommandGo ⟨false, false⟩ false (gs "say") [⟨.ok, ⟨[], .timeout 5⟩⟩] =
      ⟨[], none⟩ :=
  ⟨⟨by decide, by decide, by decide⟩,
    sendCommand_noRequire_timeout_returns_empty ⟨false, false⟩ (gs "say")
      [⟨.ok, ⟨[], .timeout 5⟩⟩] (by decide) (by decide) (by decide)⟩

/-- C2: for every command executed by SendCommand with requireSuccess =
true, if all retries+1 attempts of the loop run and none produces a
non-empty line sequence (each attempt is a failed write, an empty-buffer
timeout, or a benign empty accumulation — a non-timeout read error would
abort the loop before the attempts complete), the call fails with a non-nil
error: the last remembered write/timeout error if one was recorded,
otherwise the synthesized "no response received for <command>" error. -/
theorem sendCommand_requireSuccess_exhausted_fails (conn : ConnState)
    (cmd : GoStr) (script : List AttemptScript)
    (hconn : conn.isNil = false) (hne : script ≠ [])
    (h : ∀ a ∈ script, attemptSilent a = true) :
    sendCommandGo conn true cmd script =
      ⟨[], some ((lastAttemptErr none script).getD (.noResponse cmd))⟩ := by
  unfold sendCommandGo
  rw [hconn]
  exact sendLoop_silent cmd script none h

theorem sendCommand_requireSuccess_exhausted_fails_witness :
    ((⟨false, false⟩ : ConnState).isNil = false ∧
      ([⟨.fail 3, ⟨[], .timeout 0⟩⟩, ⟨.ok, ⟨[], .timeout 9⟩⟩] :
        List AttemptScript) ≠ [] ∧
      (∀ a ∈ ([⟨.fail 3, ⟨[], .timeout 0⟩⟩, ⟨.ok, ⟨[], .timeout 9⟩⟩] :
          List AttemptScript), attemptSilent a = true)) ∧
    sendCommandGo ⟨false, false⟩ true (gs "status")
        [⟨.fail 3, ⟨[], .timeout 0⟩⟩, ⟨.ok, ⟨[], .timeout 9⟩⟩] =
      ⟨[], some ((lastAttemptErr none
        [⟨.fail 3, ⟨[], .timeout 0⟩⟩, ⟨.ok, ⟨[], .timeout 9⟩⟩]).getD
          (.noResponse (gs "status")))⟩ :=
  ⟨⟨by decide, by decide, by decide⟩,
    sendCommand_requireSuccess_exhausted_fails ⟨false, false⟩ (gs "status")
      [⟨.fail 3, ⟨[], .timeout 0⟩⟩, ⟨.ok, ⟨[], .timeout 9⟩⟩]
      (by decide) (by decide) (by decide)⟩

/-- C4: decoding the single status-table row
"0 0 bot LOAD abc123 PlayerOne 0 1.2.3.4:1234 5678 5000" produces exactly
one Player with ClientNum=0, Score=0, Ping the literal string "LOAD",
GUID="abc123", Name="PlayerOne", IP="1.2.3.4", Port=1234, QPort=5678,
Rate=5000 and LastMsg=0. -/
theorem status_row_decode_example :
    (parseStatus [gs "0 0 bot LOAD abc123 PlayerOne 0 1.2.3.4:1234 5678 5000"]).players =
      [{ clientNum := 0, name := gs "PlayerOne", ping := .str (gs "LOAD"),
         score := 0, ip := gs "1.2.3.4", port := 1234, qport := 5678,
         guid := gs "abc123", lastMsg := 0, rate := 5000 }] := by decide

/-- C5: the key/value block decoder splits on backslashes, discards the
empty first element produced by the leading delimiter, pairs the remaining
elements positionally discarding the unpaired trailing element, and
colour-strips each stored value; decoding
"\hostname\My Server\mapname\mp_nuketown\" binds hostname to "My Server"
and mapname to "mp_nuketown", and the resulting ServerInfo carries both. -/
theorem kv_decode_example :
    kvPairs (gs "\\hostname\\My Server\\mapname\\mp_nuketown\\") =
      [(gs "hostname", gs "My Server"), (gs "mapname", gs "mp_nuketown")] ∧
    (buildServerInfo (kvPairs (gs "\\hostname\\My Server\\mapname\\mp_nuketown\\"))).hostname =
      gs "My Server" ∧
    (buildServerInfo (kvPairs (gs "\\hostname\\My Server\\mapname\\mp_nuketown\\"))).mapName =
      gs "mp_nuketown" ∧
    kvPairs (gs "\\k\\^1red value") = [(gs "k", gs "red value")] := by decide

/-- C6: the typed fields of ServerInfo / ServerStatusInfo are NOT extracted
from the decoded map: the source passes the key-name literal itself to
atoi / boolSafe, so with "com_maxclients" bound to "18" (whose integer parse
is 18) and "isInGame" bound to "1", GetInfo still yields MaxClients = 0 and
IsInGame = false, and likewise GetStatus yields SvMaxClients = 0 with
"sv_maxclients" bound to "24".  Only NetFieldChk, the string fields and the
sv_privateClientsForClients branch consult the map. -/
theorem info_literal_key_bug :
    kvGet (kvPairs (gs "\\com_maxclients\\18\\isInGame\\1")) (gs "com_maxclients") =
      some (gs "18") ∧
    goAtoi (gs "18") = 18 ∧
    (buildServerInfo (kvPairs (gs "\\com_maxclients\\18\\isInGame\\1"))).maxClients = 0 ∧
    (buildServerInfo (kvPairs (gs "\\com_maxclients\\18\\isInGame\\1"))).isInGame = false ∧
    (buildServerStatusInfo (kvPairs (gs "\\sv_maxclients\\24"))).svMaxClients = 0 ∧
    (buildServerInfo (kvPairs (gs "\\netfieldchk\\7"))).netFieldChk = 7 := by decide

lemma normLoopF_succ (f : Nat) (s : GoStr) :
    normLoopF (f + 1) s = if (normStep s).2 then normLoopF f (normStep s).1 else s := rfl

lemma normLoopF_nil (f : Nat) : normLoopF f [] = [] := by
  cases f with
  | zero => rfl
  | succ g =>
    have h : (normStep []).2 = false := by decide
    simp [normLoopF_succ, h]

lemma normStep_fst_length_lt (s : GoStr) (h : (normStep s).2 = true) :
    (normStep s).1.length < s.length := by
  cases h1 : ff4.isPrefixOf s with
  | true =>
    have hp : ff4 <+: s := List.isPrefixOf_iff_prefix.mp h1
    have h4 : 4 ≤ s.length := by
      have hle := hp.length_le
      have hfl : ff4.length = 4 := by decide
      omega
    cases h2 : (gs "print\n").isPrefixOf (s.drop 4) with
    | true =>
      have hstep : (normStep s).1 = (s.drop 4).drop 6 := by
        simp [normStep, h1, h2]
      rw [hstep, List.length_drop, List.length_drop]
      omega
    | false =>
      have hstep : (normStep s).1 = s.drop 4 := by
        simp [normStep, h1, h2]
      rw [hstep, List.length_drop]
      omega
  | false =>
    cases h2 : (gs "print\n").isPrefixOf s with
    | true =>
      have hp : gs "print\n" <+: s := List.isPrefixOf_iff_prefix.mp h2
      have h6 : 6 ≤ s.length := by
        have hle := hp.length_le
        have hl : (gs "print\n").length = 6 := by decide
        omega
      have hstep : (normStep s).1 = s.drop 6 := by
        simp [normStep, h1, h2]
      rw [hstep, List.length_drop]
      omega
    | false =>
      have hstep : (normStep s).2 = false := by simp [normStep, h1, h2]
      rw [h] at hstep
      exact absurd hstep (by decide)

lemma normLoopF_fuel : ∀ (f1 : Nat) (s : GoStr) (f2 : Nat),
    s.length ≤ f1 → s.length ≤ f2 → normLoopF f1 s = normLoopF f2 s := by
  intro f1
  induction f1 with
  | zero =>
    intro s f2 h1 h2
    have hs : s = [] := List.eq_nil_of_length_eq_zero (Nat.le_zero.mp h1)
    subst hs
    simp [normLoopF_nil]
  | succ g ih =>
    intro s f2 h1 h2
    cases f2 with
    | zero =>
      have hs : s = [] := List.eq_nil_of_length_eq_zero (Nat.le_zero.mp h2)
      subst hs
      simp [normLoopF_nil]
    | succ g2 =>
      rw [normLoopF_succ, normLoopF_succ]
      cases hc : (normStep s).2 with
      | false => rfl
      | true =>
        have hlt := normStep_fst_length_lt s hc
        simp only [if_pos rfl]
        exact ih (normStep s).1 g2 (by omega) (by omega)

lemma ff4_not_prefix_printNl : ¬ (ff4 <+: gs "print\n") := by decide

lemma normLoopGo_ff4_prefix (s : GoStr) : normLoopGo (ff4 ++ s) = normLoopGo s := by
  unfold normLoopGo
  have hlen : (ff4 ++ s).length = s.length + 4 := by
    rw [List.length_append]
    have hfl : ff4.length = 4 := by decide
    omega
  rw [hlen]
  have hc1 : ff4.isPrefixOf (ff4 ++ s) = true := by
    have := List.isPrefixOf_iff_prefix.mpr (List.prefix_append ff4 s)
    simpa using this
  have hdrop : (ff4 ++ s).drop 4 = s := by
    have h := List.drop_left ff4 s
    have hl : ff4.length = 4 := by decide
    rwa [hl] at h
  show normLoopF ((s.length + 3) + 1) (ff4 ++ s) = normLoopF s.length s
  rw [normLoopF_succ]
  cases hp : (gs "print\n").isPrefixOf s with
  | false =>
    have hstep : normStep (ff4 ++ s) = (s, true) := by
      simp [normStep, hc1, hdrop, hp]
    rw [hstep]
    simp only [if_pos rfl]
    exact normLoopF_fuel (s.length + 3) s s.length (by omega) (le_refl _)
  | true =>
    have hstep : normStep (ff4 ++ s) = (s.drop 6, true) := by
      simp [normStep, hc1, hdrop, hp]
    rw [hstep]
    simp only [if_pos rfl]
    have hpfx : gs "print\n" <+: s := List.isPrefixOf_iff_prefix.mp hp
    have h6 : 6 ≤ s.length := by
      have hle := hpfx.length_le
      have hl : (gs "print\n").length = 6 := by decide
      omega
    have hc1s : ff4.isPrefixOf s = false := by
      cases hx : ff4.isPrefixOf s with
      | false => rfl
      | true =>
        have hxp : ff4 <+: s := List.isPrefixOf_iff_prefix.mp hx
        have hbad : ff4 <+: gs "print\n" :=
          List.prefix_of_prefix_length_le hxp hpfx (by decide)
        exact absurd hbad ff4_not_prefix_printNl
    have hsteps : normStep s = (s.drop 6, true) := by
      simp [normStep, hc1s, hp]
    have hRHS : normLoopF s.length s = normLoopF (s.length - 1) (s.drop 6) := by
      obtain ⟨k, hk⟩ : ∃ k, s.length = k + 1 := ⟨s.length - 1, by omega⟩
      rw [hk]
      rw [normLoopF_succ, hsteps]
      simp only [if_pos rfl]
      rfl
    rw [hRHS]
    exact normLoopF_fuel (s.length + 3) (s.drop 6) (s.length - 1)
      (by rw [List.length_drop]; omega) (by rw [List.length_drop]; omega)

lemma normLoopGo_printNl_prefix (s : GoStr) :
    normLoopGo (gs "print\n" ++ s) = normLoopGo s := by
  unfold normLoopGo
  have hlen : (gs "print\n" ++ s).length = s.length + 6 := by
    have hl : (gs "print\n").length = 6 := by decide
    simp [List.length_append, hl]
    omega
  rw [hlen]
  have hppfx : gs "print\n" <+: gs "print\n" ++ s := List.prefix_append _ s
  have hc1 : ff4.isPrefixOf (gs "print\n" ++ s) = false := by
    cases hx : ff4.isPrefixOf (gs "print\n" ++ s) with
    | false => rfl
    | true =>
      have hxp : ff4 <+: gs "print\n" ++ s := List.isPrefixOf_iff_prefix.mp (by simp [hx])
      have : ff4 <+: gs "print\n" :=
        List.prefix_of_prefix_length_le hxp hppfx (by decide)
      exact absurd this ff4_not_prefix_printNl
  have hc2 : (gs "print\n").isPrefixOf (gs "print\n" ++ s) = true := by
    have := List.isPrefixOf_iff_prefix.mpr hppfx
    simpa using this
  have hdrop : (gs "print\n" ++ s).drop 6 = s := by
    have h := List.drop_left (gs "print\n") s
    have hl : (gs "print\n").length = 6 := by decide
    rwa [hl] at h
  show normLoopF ((s.length + 5) + 1) (gs "print\n" ++ s) = normLoopF s.length s
  rw [normLoopF_succ]
  have hstep : normStep (gs "print\n" ++ s) = (s, true) := by
    simp [normStep, hc1, hc2, hdrop]
  rw [hstep]
  simp only [if_pos rfl]
  exact normLoopF_fuel (s.length + 5) s s.length (by omega) (le_refl _)

/-- C3: normalization strips leading sentinel / "print\n" prefixes
repeatedly (one pass of the strip loop removes either, so any number of
leading occurrences is removed) and collapses embedded "\n"+sentinel and
"\n"+"print\n" occurrences; the input
"\xFF\xFF\xFF\xFFprint\nmap: mp_nuketown\n\xFF\xFF\xFF\xFFprint\nnum score ping..."
normalizes to exactly the two logical lines "map: mp_nuketown" and
"num score ping..." with the embedded marker gone. -/
theorem normalizeRCON_strips_and_collapses :
    splitNonEmptyLines (normalizeRCON
        (ff4 ++ gs "print\nmap: mp_nuketown\n" ++ ff4 ++ gs "print\nnum score ping...")) =
      [gs "map: mp_nuketown", gs "num score ping..."] ∧
    (∀ s : GoStr, normLoopGo (ff4 ++ s) = normLoopGo s) ∧
    (∀ s : GoStr, normLoopGo (gs "print\n" ++ s) = normLoopGo s) :=
  ⟨by decide, normLoopGo_ff4_prefix, normLoopGo_printNl_prefix⟩

lemma sendLoop_allWriteFail (cmd : GoStr) (e : Nat) :
    ∀ (script : List AttemptScript) (init : Option GoError),
      (∀ a ∈ script, a.write = .fail e) →
      sendLoop false cmd init script =
        ⟨[], if script.isEmpty then init else some (.net e)⟩ := by
  intro script
  induction script with
  | nil => intro init h; simp [sendLoop]
  | cons a rest ih =>
    intro init h
    have hw : a.write = .fail e := h a (List.mem_cons_self a rest)
    have hrest : ∀ b ∈ rest, b.write = .fail e :=
      fun b hb => h b (List.mem_cons_of_mem a hb)
    rw [show sendLoop false cmd init (a :: rest) =
        sendLoop false cmd (some (.net e)) rest by simp [sendLoop, hw]]
    rw [ih (some (.net e)) hrest]
    simp

/-- C8 counterexample: on a connected client, an explicit close leaves Conn
non-nil (only the socket is closed), so a subsequent SendCommand — whose
writes now fail at the net layer — does not return the "connection is not
established" error the claim promises; it returns the write error. -/
theorem close_then_sendCommand_counterexample :
    closeGo ⟨false, false⟩ = ⟨false, true⟩ ∧
    sendCommandGo (closeGo ⟨false, false⟩) false (gs "say")
        (List.replicate 4 ⟨.fail 7, ⟨[], .timeout 0⟩⟩) = ⟨[], some (.net 7)⟩ ∧
    (⟨[], some (.net 7)⟩ : SendResult) ≠
      ⟨[], some (.msg (gs "RCON connection is not established"))⟩ := by decide

/-- C8 (amended): Close closes the socket but leaves rc.Conn non-nil, so the
"connection is not established" error is returned exactly when Conn is nil
(a never-connected client) and never after an explicit close; operations on
a closed client instead surface the net-layer error of the now-failing
writes — SendCommand after its full retry schedule, GetInfo/GetStatus
immediately — so they still fail with a non-nil error rather than
succeeding. -/
theorem close_then_ops_fail_with_write_error :
    (∀ c : ConnState, (closeGo c).isNil = c.isNil ∧ (closeGo c).closed = true) ∧
    (∀ (c : ConnState) (rs : Bool) (cmd : GoStr) (script : List AttemptScript),
      c.isNil = true →
      sendCommandGo c rs cmd script =
        ⟨[], some (.msg (gs "RCON connection is not established"))⟩) ∧
    (∀ (c : ConnState) (cmd : GoStr) (script : List AttemptScript) (e : Nat),
      c.isNil = false → script ≠ [] → (∀ a ∈ script, a.write = .fail e) →
      sendCommandGo c false cmd script = ⟨[], some (.net e)⟩) ∧
    (∀ (c : ConnState) (e : Nat) (rd : ReadScript),
      c.isNil = false → getInfoGo c (.fail e) rd = .error (.net e)) ∧
    (∀ (c : ConnState) (e : Nat) (rd : ReadScript),
      c.isNil = false → getStatusGo c (.fail e) rd = .error (.net e)) := by
  refine ⟨fun c => ⟨rfl, rfl⟩, ?_, ?_, ?_, ?_⟩
  · intro c rs cmd script hnil
    simp [sendCommandGo, hnil]
  · intro c cmd script e hnil hne h
    unfold sendCommandGo
    rw [hnil]
    simp only [Bool.false_eq_true, if_false]
    rw [sendLoop_allWriteFail cmd e script none h]
    cases script with
    | nil => exact absurd rfl hne
    | cons a rest => simp
  · intro c e rd hnil
    simp [getInfoGo, hnil]
  · intro c e rd hnil
    simp [getStatusGo, hnil]

theorem close_then_ops_fail_with_write_error_witness :
    ((closeGo ⟨false, false⟩).isNil = (⟨false, false⟩ : ConnState).isNil ∧
      (closeGo ⟨false, false⟩).closed = true) ∧
    sendCommandGo ⟨true, false⟩ false (gs "say") [] =
      ⟨[], some (.msg (gs "RCON connection is not established"))⟩ ∧
    sendCommandGo ⟨false, true⟩ false (gs "say") [⟨.fail 7, ⟨[], .timeout 0⟩⟩] =
      ⟨[], some (.net 7)⟩ ∧
    getInfoGo ⟨false, true⟩ (.fail 7) ⟨[], .timeout 0⟩ = .error (.net 7) ∧
    getStatusGo ⟨false, true⟩ (.fail 7) ⟨[], .timeout 0⟩ = .error (.net 7) :=
  ⟨close_then_ops_fail_with_write_error.1 ⟨false, false⟩,
    close_then_ops_fail_with_write_error.2.1 ⟨true, false⟩ false (gs "say") [] (by decide),
    close_then_ops_fail_with_write_error.2.2.1 ⟨false, true⟩ (gs "say")
      [⟨.fail 7, ⟨[], .timeout 0⟩⟩] 7 (by decide) (by decide) (by decide),
    close_then_ops_fail_with_write_error.2.2.2.1 ⟨false, true⟩ 7 ⟨[], .timeout 0⟩ (by decide),
    close_then_ops_fail_with_write_error.2.2.2.2 ⟨false, true⟩ 7 ⟨[], .timeout 0⟩ (by decide)⟩

/-- C9 counterexample: the port string "-1" parses under strconv.Atoi (which
accepts a sign), so New does not fail with the invalid-port error for it;
with a non-empty password it proceeds to the address-resolution stage
carrying portNum = -1. -/
theorem new_negative_port_counterexample :
    newGo (gs "host") (gs "-1") (gs "pw") = .resolveStage (-1) ∧
    newGo (gs "host") (gs "-1") (gs "pw") ≠ .errInvalidPort := by decide

/-- C9 (amended): construction fails with the empty-password error for the
empty password (checked first); it fails with the invalid-port error exactly
for port strings strconv.Atoi rejects — strings parsing as negative integers
are accepted by the port check and proceed to address resolution (where such
an address fails at runtime); on success the constructed client stores the
1-second default read timeout. -/
theorem new_validation :
    (∀ ip port : GoStr, newGo ip port [] = .errEmptyPassword) ∧
    (∀ ip port pw : GoStr, pw ≠ [] → goAtoiOpt port = none →
      newGo ip port pw = .errInvalidPort) ∧
    (∀ (ip port pw : GoStr) (n : Int), pw ≠ [] → goAtoiOpt port = some n →
      newGo ip port pw = .resolveStage n) ∧
    (∀ (ip : GoStr) (n : Int) (pw : GoStr),
      (mkRCONClient ip n pw).timeoutMs = defaultReadTimeoutMs ∧
        defaultReadTimeoutMs = 1000) := by
  refine ⟨fun ip port => by simp [newGo], ?_, ?_, fun ip n pw => ⟨rfl, rfl⟩⟩
  · intro ip port pw hpw hport
    simp [newGo, List.isEmpty_iff, hpw, hport]
  · intro ip port pw n hpw hport
    simp [newGo, List.isEmpty_iff, hpw, hport]

theorem new_validation_witness :
    newGo (gs "h") (gs "70") [] = .errEmptyPassword ∧
    newGo (gs "h") (gs "7x") (gs "p") = .errInvalidPort ∧
    newGo (gs "h") (gs "28960") (gs "p") = .resolveStage 28960 ∧
    ((mkRCONClient (gs "h") 28960 (gs "p")).timeoutMs = defaultReadTimeoutMs ∧
      defaultReadTimeoutMs = 1000) :=
  ⟨new_validation.1 (gs "h") (gs "70"),
    new_validation.2.1 (gs "h") (gs "7x") (gs "p") (by decide) (by decide),
    new_validation.2.2.1 (gs "h") (gs "28960") (gs "p") 28960 (by decide) (by decide),
    new_validation.2.2.2 (gs "h") 28960 (gs "p")⟩

/-- C10: GetInfo and GetStatus are single-exchange operations (their
definitions consume exactly one write outcome and one accumulation script;
there is no retry loop): a write error propagates immediately, a non-timeout
read error propagates immediately, a timeout with nothing accumulated
propagates the timeout error immediately, and an accumulation that
normalizes to the empty line sequence is the "empty infoResponse" /
"empty statusResponse" error — never a success. -/
theorem getInfo_getStatus_single_exchange :
    (∀ (e : Nat) (rd : ReadScript),
      getInfoGo ⟨false, false⟩ (.fail e) rd = .error (.net e) ∧
        getStatusGo ⟨false, false⟩ (.fail e) rd = .error (.net e)) ∧
    (∀ (e : Nat) (ds : List GoStr),
      getInfoGo ⟨false, false⟩ .ok ⟨ds, .ioErr e⟩ = .error (.net e) ∧
        getStatusGo ⟨false, false⟩ .ok ⟨ds, .ioErr e⟩ = .error (.net e)) ∧
    (∀ (e : Nat) (ds : List GoStr), bufJoin ds = [] →
      getInfoGo ⟨false, false⟩ .ok ⟨ds, .timeout e⟩ = .error (.net e) ∧
        getStatusGo ⟨false, false⟩ .ok ⟨ds, .timeout e⟩ = .error (.net e)) ∧
    (∀ (e : Nat) (ds : List GoStr), bufJoin ds ≠ [] →
      normalizeRCON (bufJoin ds) = [] →
      getInfoGo ⟨false, false⟩ .ok ⟨ds, .timeout e⟩ =
          .error (.msg (gs "empty infoResponse")) ∧
        getStatusGo ⟨false, false⟩ .ok ⟨ds, .timeout e⟩ =
          .error (.msg (gs "empty statusResponse"))) := by
  refine ⟨fun e rd => ⟨rfl, rfl⟩, fun e ds => ⟨rfl, rfl⟩, ?_, ?_⟩
  · intro e ds h
    constructor <;> simp [getInfoGo, getStatusGo, readResponseGo, h]
  · intro e ds h1 h2
    constructor <;>
      simp [getInfoGo, getStatusGo, readResponseGo, List.isEmpty_iff, h1, h2]

theorem getInfo_getStatus_single_exchange_witness :
    (getInfoGo ⟨false, false⟩ .ok ⟨[], .timeout 1⟩ = .error (.net 1) ∧
      getStatusGo ⟨false, false⟩ .ok ⟨[], .timeout 1⟩ = .error (.net 1)) ∧
    (getInfoGo ⟨false, false⟩ .ok ⟨[gs " "], .timeout 1⟩ =
        .error (.msg (gs "empty infoResponse")) ∧
      getStatusGo ⟨false, false⟩ .ok ⟨[gs " "], .timeout 1⟩ =
        .error (.msg (gs "empty statusResponse"))) :=
  ⟨getInfo_getStatus_single_exchange.2.2.1 1 [] (by decide),
    getInfo_getStatus_single_exchange.2.2.2 1 [gs " "] (by decide) (by decide)⟩

lemma dvarFallback_nil : dvarFallback [] = none := rfl

lemma dvarFallback_cons (l : GoStr) (rest : List GoStr) :
    dvarFallback (l :: rest) =
      if !(cleanLine l).isEmpty && !polluted (cleanLine l) then some (cleanLine l)
      else dvarFallback rest := by
  unfold dvarFallback
  rw [List.map_cons, List.filter_cons]
  cases hc : (!(cleanLine l).isEmpty && !polluted (cleanLine l)) with
  | true => simp [hc]
  | false => simp [hc]

lemma dvarFallback_some (ls : List GoStr) (v : GoStr)
    (h : dvarFallback ls = some v) : v.isEmpty = false ∧ polluted v = false := by
  unfold dvarFallback at h
  cases hl : ((ls.map cleanLine).filter fun c => !c.isEmpty && !polluted c) with
  | nil => rw [hl] at h; simp at h
  | cons a t =>
    rw [hl] at h
    simp at h
    have hmem : a ∈ ((ls.map cleanLine).filter fun c => !c.isEmpty && !polluted c) := by
      rw [hl]; exact List.mem_cons_self a t
    have hpred := List.of_mem_filter hmem
    rw [h] at hpred
    simp at hpred
    exact ⟨by simp [hpred.1], by simp [hpred.2]⟩

lemma dvarFallback_append (a b : List GoStr) :
    dvarFallback (a ++ b) =
      match dvarFallback a with
      | some v => some v
      | none => dvarFallback b := by
  induction a with
  | nil => simp [dvarFallback_nil]
  | cons l rest ih =>
    rw [List.cons_append, dvarFallback_cons, dvarFallback_cons]
    cases hc : (!(cleanLine l).isEmpty && !polluted (cleanLine l)) with
    | true => simp [hc]
    | false => simp [hc, ih]

lemma scanLines_no_match (name : GoStr) :
    ∀ (ls : List GoStr) (lc : GoStr),
      (∀ l ∈ ls, lineMatchesDvar name (cleanLine l) = none) →
      scanLines name lc ls =
        .inr (if lc.isEmpty then (dvarFallback ls).getD [] else lc) := by
  intro ls
  induction ls with
  | nil =>
    intro lc h
    cases hlc : lc.isEmpty with
    | true =>
      have he : lc = [] := List.isEmpty_iff.mp hlc
      subst he
      simp [scanLines, dvarFallback_nil]
    | false => simp [scanLines, hlc]
  | cons l rest ih =>
    intro lc h
    have hl := h l (List.mem_cons_self l rest)
    have hrest : ∀ b ∈ rest, lineMatchesDvar name (cleanLine b) = none :=
      fun b hb => h b (List.mem_cons_of_mem l hb)
    cases hce : (cleanLine l).isEmpty with
    | true =>
      have hstep : scanLines name lc (l :: rest) = scanLines name lc rest := by
        simp [scanLines, hce]
      rw [hstep, ih lc hrest, dvarFallback_cons, hce]
      simp
    | false =>
      have hstep : scanLines name lc (l :: rest) =
          scanLines name
            (if !polluted (cleanLine l) && lc.isEmpty then cleanLine l else lc)
            rest := by
        simp [scanLines, hce, hl]
      cases hlc : lc.isEmpty with
      | false =>
        have hkeep :
            (if !polluted (cleanLine l) && lc.isEmpty then cleanLine l else lc) = lc := by
          simp [hlc]
        rw [hstep, hkeep, ih lc hrest, dvarFallback_cons]
        simp [hlc]
      | true =>
        have he : lc = [] := List.isEmpty_iff.mp hlc
        subst he
        cases hp : polluted (cleanLine l) with
        | true =>
          have hkeep :
              (if !polluted (cleanLine l) && ([] : GoStr).isEmpty then cleanLine l
                else ([] : GoStr)) = [] := by
            simp [hp]
          rw [hstep, hkeep, ih [] hrest, dvarFallback_cons]
          simp [hce, hp]
        | false =>
          have hkeep :
              (if !polluted (cleanLine l) && ([] : GoStr).isEmpty then cleanLine l
                else ([] : GoStr)) = cleanLine l := by
            simp [hp]
          rw [hstep, hkeep, ih (cleanLine l) hrest, dvarFallback_cons]
          simp [hce, hp]

lemma getDvarLoop_succ (name dvar : GoStr) (resp : Nat → List GoStr)
    (fuel : Nat) (lastClean : GoStr) :
    getDvarLoop name dvar resp (fuel + 1) lastClean =
      match scanLines name lastClean (resp (3 - (fuel + 1))) with
      | .inl v => .ok v
      | .inr lc =>
        if (resp (3 - (fuel + 1))).any polluted then
          getDvarLoop name dvar resp fuel lc
        else if lc.isEmpty then .error (.emptyDvar dvar) else .ok lc := rfl

lemma getDvarLoop_zero (name dvar : GoStr) (resp : Nat → List GoStr)
    (lastClean : GoStr) :
    getDvarLoop name dvar resp 0 lastClean =
      if lastClean.isEmpty then .error (.emptyDvar dvar) else .ok lastClean := rfl

/-- C7: when neither recognition pattern ever matches any line of the
dvar-query responses, GetDvar retries exactly after responses containing the
pollution token (up to its cap of 3 attempts: the responses it scans are
dvarConsumed) and finally returns the first remembered clean, non-polluted
line if one exists — otherwise it fails with the "empty dvar response"
error. -/
theorem getDvar_unmatched_returns_fallback (dvar : GoStr)
    (resp : Nat → List GoStr) (hd : dvar ≠ [])
    (h : ∀ i < 3, ∀ l ∈ resp i,
      lineMatchesDvar (goTrimSpace dvar) (cleanLine l) = none) :
    getDvarGo dvar resp =
      match dvarFallback (dvarConsumed resp) with
      | some v => .ok v
      | none => .error (.emptyDvar dvar) := by
  have h0 := h 0 (by omega)
  have h1 := h 1 (by omega)
  have h2 := h 2 (by omega)
  have hde : dvar.isEmpty = false := by
    cases hx : dvar.isEmpty with
    | false => rfl
    | true => exact absurd (List.isEmpty_iff.mp hx) hd
  unfold getDvarGo
  rw [hde]
  simp only [Bool.false_eq_true, if_false]
  rw [show getDvarLoop (goTrimSpace dvar) dvar resp 3 [] =
      getDvarLoop (goTrimSpace dvar) dvar resp (2 + 1) [] from rfl]
  rw [getDvarLoop_succ]
  rw [show (3 : Nat) - (2 + 1) = 0 from rfl]
  rw [scanLines_no_match (goTrimSpace dvar) (resp 0) [] h0]
  rw [show (if ([] : GoStr).isEmpty then (dvarFallback (resp 0)).getD []
      else ([] : GoStr)) = (dvarFallback (resp 0)).getD [] from rfl]
  dsimp only
  rcases Bool.eq_false_or_eq_true ((resp 0).any polluted) with hp0 | hp0
  · rw [if_pos hp0]
    rw [show getDvarLoop (goTrimSpace dvar) dvar resp 2
          ((dvarFallback (resp 0)).getD []) =
        getDvarLoop (goTrimSpace dvar) dvar resp (1 + 1)
          ((dvarFallback (resp 0)).getD []) from rfl]
    rw [getDvarLoop_succ]
    rw [show (3 : Nat) - (1 + 1) = 1 from rfl]
    rw [scanLines_no_match (goTrimSpace dvar) (resp 1) _ h1]
    dsimp only
    cases hf0 : dvarFallback (resp 0) with
    | some v =>
      have hv := dvarFallback_some (resp 0) v hf0
      have hsel1 : (if List.isEmpty ((some v).getD ([] : GoStr)) = true
          then (dvarFallback (resp 1)).getD [] else (some v).getD ([] : GoStr)) = v := by
        simp [hv.1]
      rw [hsel1]
      rcases Bool.eq_false_or_eq_true ((resp 1).any polluted) with hp1 | hp1
      · rw [if_pos hp1]
        rw [show getDvarLoop (goTrimSpace dvar) dvar resp 1 v =
            getDvarLoop (goTrimSpace dvar) dvar resp (0 + 1) v from rfl]
        rw [getDvarLoop_succ]
        rw [show (3 : Nat) - (0 + 1) = 2 from rfl]
        rw [scanLines_no_match (goTrimSpace dvar) (resp 2) _ h2]
        dsimp only
        have hsel2 : (if List.isEmpty v = true
            then (dvarFallback (resp 2)).getD [] else v) = v := by
          simp [hv.1]
        rw [hsel2]
        have hcons : dvarConsumed resp = resp 0 ++ (resp 1 ++ resp 2) := by
          unfold dvarConsumed
          rw [if_pos hp0, if_pos hp1]
        rcases Bool.eq_false_or_eq_true ((resp 2).any polluted) with hp2 | hp2
        · rw [if_pos hp2, getDvarLoop_zero, hcons]
          simp [dvarFallback_append, hf0, hv.1]
        · have hc2 : ¬((resp 2).any polluted = true) := by simp [hp2]
          rw [if_neg hc2, hcons]
          simp [dvarFallback_append, hf0, hv.1]
      · have hc1 : ¬((resp 1).any polluted = true) := by simp [hp1]
        rw [if_neg hc1]
        have hcons : dvarConsumed resp = resp 0 ++ (resp 1 ++ []) := by
          unfold dvarConsumed
          rw [if_pos hp0, if_neg hc1]
        rw [hcons]
        simp [dvarFallback_append, hf0, hv.1]
    | none =>
      have hsel1 : (if List.isEmpty ((none : Option GoStr).getD ([] : GoStr)) = true
          then (dvarFallback (resp 1)).getD []
          else (none : Option GoStr).getD ([] : GoStr)) =
          (dvarFallback (resp 1)).getD [] := rfl
      rw [hsel1]
      rcases Bool.eq_false_or_eq_true ((resp 1).any polluted) with hp1 | hp1
      · rw [if_pos hp1]
        rw [show getDvarLoop (goTrimSpace dvar) dvar resp 1
              ((dvarFallback (resp 1)).getD []) =
            getDvarLoop (goTrimSpace dvar) dvar resp (0 + 1)
              ((dvarFallback (resp 1)).getD []) from rfl]
        rw [getDvarLoop_succ]
        rw [show (3 : Nat) - (0 + 1) = 2 from rfl]
        rw [scanLines_no_match (goTrimSpace dvar) (resp 2) _ h2]
        dsimp only
        have hcons : dvarConsumed resp = resp 0 ++ (resp 1 ++ resp 2) := by
          unfold dvarConsumed
          rw [if_pos hp0, if_pos hp1]
        cases hf1 : dvarFallback (resp 1) with
        | some w =>
          have hw := dvarFallback_some (resp 1) w hf1
          have hsel2 : (if List.isEmpty ((some w).getD ([] : GoStr)) = true
              then (dvarFallback (resp 2)).getD []
              else (some w).getD ([] : GoStr)) = w := by
            simp [hw.1]
          rw [hsel2]
          rcases Bool.eq_false_or_eq_true ((resp 2).any polluted) with hp2 | hp2
          · rw [if_pos hp2, getDvarLoop_zero, hcons]
            simp [dvarFallback_append, hf0, hf1, hw.1]
          · have hc2 : ¬((resp 2).any polluted = true) := by simp [hp2]
            rw [if_neg hc2, hcons]
            simp [dvarFallback_append, hf0, hf1, hw.1]
        | none =>
          have hsel2 : (if List.isEmpty ((none : Option GoStr).getD ([] : GoStr)) = true
              then (dvarFallback (resp 2)).getD []
              else (none : Option GoStr).getD ([] : GoStr)) =
              (dvarFallback (resp 2)).getD [] := rfl
          rw [hsel2]
          rcases Bool.eq_false_or_eq_true ((resp 2).any polluted) with hp2 | hp2
          · rw [if_pos hp2, getDvarLoop_zero, hcons]
            cases hf2 : dvarFallback (resp 2) with
            | none => simp [dvarFallback_append, hf0, hf1, hf2]
            | some u =>
              have hu := dvarFallback_some (resp 2) u hf2
              simp [dvarFallback_append, hf0, hf1, hf2, hu.1]
          · have hc2 : ¬((resp 2).any polluted = true) := by simp [hp2]
            rw [if_neg hc2, hcons]
            cases hf2 : dvarFallback (resp 2) with
            | none => simp [dvarFallback_append, hf0, hf1, hf2]
            | some u =>
              have hu := dvarFallback_some (resp 2) u hf2
              simp [dvarFallback_append, hf0, hf1, hf2, hu.1]
      · have hc1 : ¬((resp 1).any polluted = true) := by simp [hp1]
        rw [if_neg hc1]
        have hcons : dvarConsumed resp = resp 0 ++ (resp 1 ++ []) := by
          unfold dvarConsumed
          rw [if_pos hp0, if_neg hc1]
        rw [hcons]
        cases hf1 : dvarFallback (resp 1) with
        | none => simp [dvarFallback_append, hf0, hf1, dvarFallback_nil]
        | some w =>
          have hw := dvarFallback_some (resp 1) w hf1
          simp [dvarFallback_append, hf0, hf1, hw.1]
  · have hc0 : ¬((resp 0).any polluted = true) := by simp [hp0]
    rw [if_neg hc0]
    have hcons : dvarConsumed resp = resp 0 ++ [] := by
      unfold dvarConsumed
      rw [if_neg hc0]
    cases hf0 : dvarFallback (resp 0) with
    | none =>
      rw [hcons]
      simp [dvarFallback_append, hf0, dvarFallback_nil]
    | some v =>
      have hv := dvarFallback_some (resp 0) v hf0
      rw [hcons]
      simp [dvarFallback_append, hf0, hv.1]

/-- A concrete response schedule for the C7 witness: two polluted responses
followed by an empty one; the second line of the first response is the clean
fallback candidate. -/
def dvarRespW : Nat → List GoStr := fun i =>
  if i = 0 then [gs "sv_iw4madmin_in 1", gs "some other line"]
  else if i = 1 then [gs "sv_iw4madmin_in 1"]
  else []

theorem getDvar_unmatched_returns_fallback_witness :
    ((gs "sv_x" : GoStr) ≠ [] ∧
      (∀ i < 3, ∀ l ∈ dvarRespW i,
        lineMatchesDvar (goTrimSpace (gs "sv_x")) (cleanLine l) = none)) ∧
    getDvarGo (gs "sv_x") dvarRespW =
      match dvarFallback (dvarConsumed dvarRespW) with
      | some v => .ok v
      | none => .error (.emptyDvar (gs "sv_x")) :=
  ⟨⟨by decide, by decide⟩,
    getDvar_unmatched_returns_fallback (gs "sv_x") dvarRespW (by decide) (by decide)⟩
